import Mathlib

/-!
Verification development for the NexusFlow workflow orchestrator
(App component, llmService, constants, types).

The TypeScript sources are shallowly embedded: the React state updates of
the App component become pure transition functions on a `WorkflowState`
record; the single asynchronous boundary (the provider call inside
`executeStep`) is modelled by passing its outcome (`ProviderOutcome`) as a
parameter, and every `Date.now()` reading is a `Nat` parameter supplied by
the environment.  JavaScript strings are modelled as Lean strings
(sequences of code points; this agrees with JavaScript `.length`,
`.slice` and `.trim` on text without astral-plane characters, which is
the only kind appearing here).  `undefined` object fields are `Option`
values.
-/

set_option maxRecDepth 8192

namespace NexusFlow

/-- Model identifiers, from the `ModelId` enum in `types.ts`. -/
inductive ModelId where
  | GEMINI_3
  | CLAUDE_3
  | LLAMA_3
  | HF_TRANSFORMERS
deriving DecidableEq, Repr

/-- String value of each `ModelId` enum member. -/
def ModelId.value : ModelId → String
  | .GEMINI_3 => "gemini-3-pro-preview"
  | .CLAUDE_3 => "claude-3-opus"
  | .LLAMA_3 => "llama-3-70b-instruct"
  | .HF_TRANSFORMERS => "hf-transformers-latest"

/-- Whether a string is the value of some `ModelId` enum member. -/
def knownModelId (s : String) : Bool :=
  s == "gemini-3-pro-preview" || s == "claude-3-opus" ||
  s == "llama-3-70b-instruct" || s == "hf-transformers-latest"

/-- Step lifecycle states, from the `StepStatus` enum in `types.ts`. -/
inductive StepStatus where
  | PENDING
  | RUNNING
  | PAUSED
  | COMPLETED
  | ERROR
deriving DecidableEq, Repr

/-- Execution granularity, from the `ExecutionMode` type in `types.ts`. -/
inductive ExecutionMode where
  | step
  | batch
  | all
deriving DecidableEq, Repr

/-- One workflow step, from the `WorkflowStep` interface in `types.ts`.
Optional fields are `Option`; absent (`undefined`) is `none`. -/
structure WorkflowStep where
  id : String
  title : String
  prompt : String
  status : StepStatus
  result : Option String := none
  error : Option String := none
  feedback : Option String := none
  modelUsed : Option ModelId := none
  timestamp : Option Nat := none
  latency : Option Nat := none
deriving DecidableEq, Repr

/-- Log severity levels, from the `LogEntry` interface in `types.ts`. -/
inductive LogLevel where
  | info
  | success
  | warn
  | error
deriving DecidableEq, Repr

/-- One log entry, from the `LogEntry` interface in `types.ts`. -/
structure LogEntry where
  id : String
  timestamp : Nat
  level : LogLevel
  message : String
  details : Option String := none
deriving DecidableEq, Repr

/-- The aggregate state, from the `WorkflowState` interface in `types.ts`. -/
structure WorkflowState where
  steps : List WorkflowStep
  currentStepIndex : Nat
  selectedModel : ModelId
  executionMode : ExecutionMode
  isProcessing : Bool
  history : List LogEntry
deriving DecidableEq, Repr

/-- The `INITIAL_STEPS` constant from `constants.ts`. -/
def INITIAL_STEPS : List WorkflowStep :=
  [ { id := "step-1", title := "Market Analysis",
      prompt := "Analyze the current trends in AI agent workflows as of late 2025. Summarize key adoption drivers.",
      status := StepStatus.PENDING },
    { id := "step-2", title := "Architecture Draft",
      prompt := "Based on the analysis, draft a high-level system architecture for a modular inference engine using Python.",
      status := StepStatus.PENDING },
    { id := "step-3", title := "Security Review",
      prompt := "Review the architecture for potential prompt injection vulnerabilities and suggest mitigation strategies.",
      status := StepStatus.PENDING } ]

/-- The `SYSTEM_INSTRUCTION` constant from `constants.ts`. -/
def SYSTEM_INSTRUCTION : String :=
  "You are an advanced AI workflow assistant. Execute the user\x27s request precisely. Maintain technical accuracy."

/-- JavaScript truthiness of an optional string: `undefined` and the empty
string are falsy, every other string is truthy. -/
def jsTruthyStr : Option String → Bool
  | none => false
  | some s => !(s == "")

/-- In-place update of one list index, modelling
`newSteps[index] = f(newSteps[index])` on a dense JS array with
`index < length`.  Out-of-range indices leave the list unchanged (no call
site reached by the claims uses an out-of-range index; JS would extend the
array there). -/
def modifyIdx (f : α → α) : Nat → List α → List α
  | _, [] => []
  | 0, a :: as => f a :: as
  | n + 1, a :: as => a :: modifyIdx f n as

/-- JS `array.slice(-n)`: the last `n` elements (the whole list when it is
shorter than `n`). -/
def sliceLast (n : Nat) (l : List α) : List α := l.drop (l.length - n)

/-- Construction of the `LogEntry` literal inside `addLog`, with the two
`Date.now()` readings (id and timestamp) modelled as one clock value. -/
def mkLogEntry (now : Nat) (message : String) (level : LogLevel)
    (details : Option String) : LogEntry :=
  { id := toString now, timestamp := now, level := level,
    message := message, details := details }

/-- The `addLog` callback of the App component: append an entry and keep
only the most recent 500 (`newHistory.slice(-500)`). -/
def addLog (now : Nat) (message : String) (level : LogLevel)
    (details : Option String) (s : WorkflowState) : WorkflowState :=
  { s with history := sliceLast 500 (s.history ++ [mkLogEntry now message level details]) }

/-- The `updateStep` callback of the App component, specialised to the
merge function of each call site: `newSteps[index] = {...newSteps[index],
...updates}` is `modifyIdx merge index`. -/
def updateStep (s : WorkflowState) (index : Nat)
    (merge : WorkflowStep → WorkflowStep) : WorkflowState :=
  { s with steps := modifyIdx merge index s.steps }

/-- The `handleReset` handler (confirmed path): every step back to
`PENDING` with `result`, `error`, `latency`, `feedback` cleared,
`currentStepIndex := 0`, `isProcessing := false`, then
`addLog("Workflow reset initiated.", 'warn')`. -/
def handleReset (now : Nat) (s : WorkflowState) : WorkflowState :=
  addLog now ("Workflow reset initiated.") LogLevel.warn none
    { s with
      currentStepIndex := 0,
      steps := s.steps.map (fun st =>
        { st with status := StepStatus.PENDING, result := none,
                  error := none, latency := none, feedback := none }),
      isProcessing := false }

/-- Block format of one completed step inside `previousContext`:
the template literal `[Step: ${s.title}]\nResult: ${s.result}`
(the filter guarantees `result` is a truthy string at every use). -/
def stepBlock (st : WorkflowStep) : String :=
  "[Step: " ++ st.title ++ "]\nResult: " ++ st.result.getD ""

/-- The `previousContext` expression of `executeStep`:
`steps.slice(0, index).filter(s => s.status === COMPLETED && s.result)
 .map(s => block).join(\x27\n\n\x27)`. -/
def previousContext (steps : List WorkflowStep) (index : Nat) : String :=
  String.intercalate "\n\n"
    (((steps.take index).filter
        (fun st => st.status == StepStatus.COMPLETED && jsTruthyStr st.result)).map stepBlock)

/-- Modelled from the spec: the context formula of §8 / claim C2, which
keeps every step of index `< index` with `status == COMPLETED` (with no
condition on its `result`).  Used only to compare against
`previousContext`, the formula of the source. -/
def contextSpec (steps : List WorkflowStep) (index : Nat) : String :=
  String.intercalate "\n\n"
    (((steps.take index).filter
        (fun st => st.status == StepStatus.COMPLETED)).map stepBlock)

/-- The whitespace class trimmed by JS `String.prototype.trim`:
ASCII whitespace, NBSP, BOM, Unicode space separators, line separators. -/
def jsWhitespace (c : Char) : Bool :=
  c == ' ' || c == '\t' || c == '\n' || c == '\r' ||
  c == '\x0b' || c == '\x0c' || c == ' ' || c == '﻿' ||
  c == ' ' || c == ' ' || c == ' ' || c == ' ' ||
  c == ' ' || c == ' ' || c == ' ' || c == ' ' ||
  c == ' ' || c == ' ' || c == ' ' || c == ' ' ||
  c == ' ' || c == ' ' || c == ' ' || c == ' ' ||
  c == '　'

/-- JS `trim` on the character list: drop leading and trailing
whitespace. -/
def jsTrimList (l : List Char) : List Char :=
  ((l.dropWhile jsWhitespace).reverse.dropWhile jsWhitespace).reverse

/-- JS `String.prototype.trim`. -/
def jsTrim (s : String) : String := String.mk (jsTrimList s.data)

/-- JS `String.prototype.slice(0, stop)` for a non-negative `stop`. -/
def jsSlice (stop : Nat) (s : String) : String := String.mk (s.data.take stop)

/-- The `sanitizedFeedback` expression of `executeStep`:
`step.feedback.trim().slice(0, 2000)`. -/
def sanitizeFeedback (fb : String) : String := jsSlice 2000 (jsTrim fb)

/-- The `finalPrompt` assembly of `executeStep`: start from the immutable
`step.prompt`; when `step.feedback` is truthy, append the delimited
feedback block. -/
def finalPrompt (step : WorkflowStep) : String :=
  if jsTruthyStr step.feedback then
    step.prompt ++ "\n\nIMPORTANT USER FEEDBACK: " ++ sanitizeFeedback (step.feedback.getD "")
  else
    step.prompt

/-- A JS thrown value as observed by the `catch (error: unknown)` block:
either an `Error` instance (message and optional stack) or any other
value. -/
inductive ThrownValue where
  | jsError (message : String) (stack : Option String)
  | nonError
deriving DecidableEq, Repr

/-- The `errorMessage` expression of the catch block:
`error instanceof Error ? error.message : \x27Unknown error occurred\x27`. -/
def errorMessageOf : ThrownValue → String
  | .jsError m _ => m
  | .nonError => "Unknown error occurred"

/-- The details passed to the error log:
`error instanceof Error ? error.stack : undefined`. -/
def errorDetailsOf : ThrownValue → Option String
  | .jsError _ st => st
  | .nonError => none

/-- Outcome of the awaited provider call (the only asynchronous
boundary): the promise either resolves with text or rejects with a thrown
value. -/
inductive ProviderOutcome where
  | ok (text : String)
  | threw (v : ThrownValue)
deriving DecidableEq, Repr

/-- The arguments `executeStep` passes to
`llmService.executeStep(selectedModel, finalPrompt, SYSTEM_INSTRUCTION,
previousContext)`. -/
structure DispatchRecord where
  model : ModelId
  prompt : String
  systemInstruction : String
  context : String
deriving DecidableEq, Repr

/-- First `setState` of `executeStep`: if the target step exists, mark it
`RUNNING`, record `prev.selectedModel` as `modelUsed`, and raise
`isProcessing`; otherwise return the state unchanged. -/
def beginStep (index : Nat) (s : WorkflowState) : WorkflowState :=
  match s.steps[index]? with
  | none => s
  | some _ =>
      { s with
        steps := modifyIdx
          (fun st => { st with status := StepStatus.RUNNING,
                               modelUsed := some s.selectedModel })
          index s.steps,
        isProcessing := true }

/-- Result reconciliation of `executeStep`: the success branch merges
`{status: PAUSED, result, latency}` (note: it does not touch `error`) and
logs success; the catch branch merges `{status: ERROR, error}` (note: it
does not touch `result`) and logs the error with its stack as details. -/
def applyOutcome (now2 : Nat) (outcome : ProviderOutcome) (latency : Nat)
    (index : Nat) (s : WorkflowState) : WorkflowState :=
  match outcome with
  | .ok text =>
      addLog now2
        ("Step " ++ toString (index + 1) ++ " execution successful. Latency: "
          ++ toString latency ++ "ms")
        LogLevel.success none
        (updateStep s index (fun st =>
          { st with status := StepStatus.PAUSED, result := some text,
                    latency := some latency }))
  | .threw v =>
      addLog now2
        ("Error in Step " ++ toString (index + 1) ++ ": " ++ errorMessageOf v)
        LogLevel.error (errorDetailsOf v)
        (updateStep s index (fun st =>
          { st with status := StepStatus.ERROR,
                    error := some (errorMessageOf v) }))

/-- The `finally` block: unconditionally clear `isProcessing`. -/
def clearProcessing (s : WorkflowState) : WorkflowState :=
  { s with isProcessing := false }

/-- The whole `executeStep(index)` run under one invocation with no
interleaved events.  `s` is both the `prev` of the first `setState` and
the `currentState` closure snapshot (they coincide here).  When the index
is out of range the first `setState` returns `prev` unchanged and the
handler returns before logging or dispatching (`(s, none)`).  Otherwise
it marks the step running, logs, assembles context and final prompt from
the snapshot, dispatches (`DispatchRecord`), reconciles the outcome, and
finally clears `isProcessing`.  There is no check of `isProcessing`
anywhere on this path. -/
def executeStep (now0 now1 now2 : Nat) (outcome : ProviderOutcome)
    (latency : Nat) (index : Nat) (s : WorkflowState) :
    WorkflowState × Option DispatchRecord :=
  match s.steps[index]? with
  | none => (s, none)
  | some step =>
      let s1 := beginStep index s
      let s2 := addLog now0
        ("Starting Step " ++ toString (index + 1) ++ ": " ++ step.title)
        LogLevel.info none s1
      let s3 := if jsTruthyStr step.feedback then
          addLog now1 ("Applied user feedback to prompt") LogLevel.info none s2
        else s2
      let record : DispatchRecord :=
        { model := s.selectedModel, prompt := finalPrompt step,
          systemInstruction := SYSTEM_INSTRUCTION,
          context := previousContext s.steps index }
      (clearProcessing (applyOutcome now2 outcome latency index s3), some record)

/-- The `handleContinue` handler: mark the current step `COMPLETED`; when
the next index is still in range advance to it and log, otherwise log
workflow completion (leaving `currentStepIndex` where it is). -/
def handleContinue (now : Nat) (s : WorkflowState) : WorkflowState :=
  let s1 := updateStep s s.currentStepIndex
    (fun st => { st with status := StepStatus.COMPLETED })
  if s.currentStepIndex + 1 < s.steps.length then
    addLog now
      ("Advanced to Step " ++ toString (s.currentStepIndex + 1 + 1) ++ ". Ready to execute.")
      LogLevel.info none
      { s1 with currentStepIndex := s.currentStepIndex + 1 }
  else
    addLog now ("Workflow successfully completed! All steps finished.")
      LogLevel.success none s1

/-- The `handleRunClick` handler: when all steps are done, only warn;
otherwise run the current step. -/
def handleRunClick (nowWarn now0 now1 now2 : Nat) (outcome : ProviderOutcome)
    (latency : Nat) (s : WorkflowState) : WorkflowState × Option DispatchRecord :=
  if s.currentStepIndex ≥ s.steps.length then
    (addLog nowWarn ("All steps have been completed. Reset workflow to start over.")
      LogLevel.warn none s, none)
  else
    executeStep now0 now1 now2 outcome latency s.currentStepIndex s

/-- The feedback textarea handler:
`updateStep(index, { feedback: e.target.value })`. -/
def editFeedback (index : Nat) (text : String) (s : WorkflowState) : WorkflowState :=
  updateStep s index (fun st => { st with feedback := some text })

/-- The default state returned by `loadState` when nothing valid is
persisted. -/
def defaultWorkflowState : WorkflowState :=
  { steps := INITIAL_STEPS, currentStepIndex := 0,
    selectedModel := ModelId.GEMINI_3, executionMode := ExecutionMode.step,
    isProcessing := false, history := [] }

/-- A JSON value as produced by `JSON.parse`. -/
inductive Jval where
  | null
  | bool (b : Bool)
  | num (n : Int)
  | str (s : String)
  | arr (elems : List Jval)
  | obj (fields : List (String × Jval))

/-- JS truthiness of a JSON value (`null`, `false`, `0` and `""` are
falsy; arrays and objects are truthy). -/
def Jval.truthy : Jval → Bool
  | .null => false
  | .bool b => b
  | .num n => !(n == 0)
  | .str s => !(s == "")
  | .arr _ => true
  | .obj _ => true

/-- JS property access `v[k]`: `none` models `undefined` (absent field,
or access on a non-object). -/
def Jval.getField : Jval → String → Option Jval
  | .obj fields, k => (fields.find? (fun p => p.1 == k)).map (fun p => p.2)
  | _, _ => none

/-- Truthiness of `v[k]` (an `undefined` field is falsy). -/
def jsFieldTruthy (v : Jval) (k : String) : Bool :=
  match v.getField k with
  | some f => f.truthy
  | none => false

/-- `Array.isArray(v[k])`. -/
def jsFieldIsArray (v : Jval) (k : String) : Bool :=
  match v.getField k with
  | some (.arr _) => true
  | _ => false

/-- The validation expression of `loadState`:
`parsed.steps && Array.isArray(parsed.steps) && parsed.selectedModel`. -/
def shallowStateCheck (parsed : Jval) : Bool :=
  jsFieldTruthy parsed "steps" && jsFieldIsArray parsed "steps" &&
  jsFieldTruthy parsed "selectedModel"

/-- The `loadState` helper.  `stored` models
`localStorage.getItem(\x27nexus_flow_state_v1\x27)` composed with
`JSON.parse`: `none` is an absent item, `some (Except.error ())` a parse
(or storage) exception caught by the `catch`, `some (Except.ok v)` a
parsed value.  When the shallow check passes the parsed value is returned
as-is (`Sum.inl`); in every other case the default state is returned
(`Sum.inr`). -/
def loadState (stored : Option (Except Unit Jval)) : Jval ⊕ WorkflowState :=
  match stored with
  | some (Except.ok parsed) =>
      if shallowStateCheck parsed then Sum.inl parsed
      else Sum.inr defaultWorkflowState
  | _ => Sum.inr defaultWorkflowState

/-- Arguments of one `addLog` call together with its clock reading. -/
structure LogEvent where
  now : Nat
  message : String
  level : LogLevel
  details : Option String := none

/-- The entry that `addLog` appends for an event. -/
def entryOfEvent (e : LogEvent) : LogEntry :=
  mkLogEntry e.now e.message e.level e.details

/-- A sequence of `addLog` calls, applied in order. -/
def addLogs (s : WorkflowState) (events : List LogEvent) : WorkflowState :=
  events.foldl (fun st e => addLog e.now e.message e.level e.details st) s

/-- Composition of the two merges a run applies at the target index: the
begin merge (`status: RUNNING`, `modelUsed`) followed by the outcome
merge (`{status: PAUSED, result, latency}` on success — `error`
untouched; `{status: ERROR, error}` on failure — `result` untouched). -/
def outcomeMergeFn : ProviderOutcome → Nat → WorkflowStep → WorkflowStep
  | .ok text, lat, st =>
      { st with status := StepStatus.PAUSED, result := some text, latency := some lat }
  | .threw v, _, st =>
      { st with status := StepStatus.ERROR, error := some (errorMessageOf v) }

/-- The log entry emitted after the outcome is reconciled. -/
def outcomeEntry (outcome : ProviderOutcome) (lat index now2 : Nat) : LogEntry :=
  match outcome with
  | .ok _ => mkLogEntry now2
      ("Step " ++ toString (index + 1) ++ " execution successful. Latency: "
        ++ toString lat ++ "ms") LogLevel.success none
  | .threw v => mkLogEntry now2
      ("Error in Step " ++ toString (index + 1) ++ ": " ++ errorMessageOf v)
      LogLevel.error (errorDetailsOf v)

/-- A sample pending step used for concrete instantiations. -/
def exStep0 : WorkflowStep :=
  { id := "s1", title := "A", prompt := "p", status := StepStatus.PENDING }

/-- A second sample pending step. -/
def exStep1 : WorkflowStep :=
  { id := "s2", title := "B", prompt := "q", status := StepStatus.PENDING }

/-- A sample idle two-step state. -/
def exState : WorkflowState :=
  { steps := [exStep0, exStep1], currentStepIndex := 0,
    selectedModel := ModelId.CLAUDE_3, executionMode := ExecutionMode.step,
    isProcessing := false, history := [] }

/-- A sample state whose single step carries an error from a failed
attempt. -/
def exErrState : WorkflowState :=
  { steps := [{ id := "s1", title := "A", prompt := "p",
                status := StepStatus.ERROR, error := some "boom" }],
    currentStepIndex := 0, selectedModel := ModelId.GEMINI_3,
    executionMode := ExecutionMode.step, isProcessing := false, history := [] }

/-- A sample busy state: a provider call is in flight (`isProcessing`)
and both steps are still `PENDING`. -/
def exBusy : WorkflowState :=
  { steps := [exStep0, exStep1], currentStepIndex := 0,
    selectedModel := ModelId.GEMINI_3, executionMode := ExecutionMode.step,
    isProcessing := true, history := [] }

/-- A completed step whose stored result is the empty string (loadable
from a persisted snapshot, which is only shallow-validated). -/
def exEmptyRes : WorkflowStep :=
  { id := "s1", title := "A", prompt := "p",
    status := StepStatus.COMPLETED, result := some "" }

/-- A completed first step with result `"R0"` and a pending second step
(the three-step scenario of §8 shortened to its first two steps). -/
def exCtxState : WorkflowState :=
  { steps := [{ id := "s1", title := "T0", prompt := "p0",
                status := StepStatus.COMPLETED, result := some "R0" },
              exStep1],
    currentStepIndex := 1, selectedModel := ModelId.GEMINI_3,
    executionMode := ExecutionMode.step, isProcessing := false, history := [] }

/-- A single-step workflow whose only step is paused for review. -/
def exLastPaused : WorkflowState :=
  { steps := [{ id := "s1", title := "A", prompt := "p",
                status := StepStatus.PAUSED, result := some "R" }],
    currentStepIndex := 0, selectedModel := ModelId.GEMINI_3,
    executionMode := ExecutionMode.step, isProcessing := false, history := [] }

/-- A state with progress to clear: paused step with result, error,
feedback, latency, and the processing flag stuck on. -/
def exJunk : WorkflowState :=
  { steps := [{ id := "s1", title := "A", prompt := "p",
                status := StepStatus.PAUSED, result := some "R",
                error := some "E", feedback := some "F", latency := some 5 }],
    currentStepIndex := 0, selectedModel := ModelId.GEMINI_3,
    executionMode := ExecutionMode.step, isProcessing := true, history := [] }

/-- A persisted snapshot whose `selectedModel` is not a known provider
identifier (and whose `steps` entries are unconstrained): it passes the
shallow check of `loadState`. -/
def badParsed : Jval :=
  Jval.obj [("steps", Jval.arr []), ("selectedModel", Jval.str "bogus-model")]

/-- A well-formed persisted snapshot that passes the shallow check. -/
def goodParsed : Jval :=
  Jval.obj [("steps", Jval.arr []), ("selectedModel", Jval.str "gemini-3-pro-preview")]

/-- A 5000-character feedback string consisting only of spaces. -/
def fbSpaces : String := String.mk (List.replicate 5000 ' ')

/-- A 5000-character feedback string with no leading or trailing
whitespace but a long run of interior spaces starting at position 1. -/
def fbMixed : String :=
  String.mk ('a' :: (List.replicate 3000 ' ' ++ List.replicate 1999 'b'))

theorem modifyIdx_getElem? (f : α → α) (i j : Nat) (l : List α) :
    (modifyIdx f i l)[j]? = if i = j then (l[j]?).map f else l[j]? := by
  induction l generalizing i j with
  | nil => simp [modifyIdx]
  | cons a as ih =>
    cases i with
    | zero =>
      cases j with
      | zero => simp [modifyIdx]
      | succ j => simp [modifyIdx]
    | succ i =>
      cases j with
      | zero => simp [modifyIdx]
      | succ j =>
        simp only [modifyIdx, List.getElem?_cons_succ]
        rw [ih]
        by_cases h : i = j
        · rw [if_pos h, if_pos (by omega)]
        · rw [if_neg h, if_neg (by omega)]

theorem modifyIdx_length (f : α → α) (i : Nat) (l : List α) :
    (modifyIdx f i l).length = l.length := by
  induction l generalizing i with
  | nil => cases i <;> rfl
  | cons a as ih =>
    cases i with
    | zero => rfl
    | succ i => simp [modifyIdx, ih]

theorem sliceLast_length_le (n : Nat) (l : List α) : (sliceLast n l).length ≤ n := by
  simp only [sliceLast, List.length_drop]
  omega

theorem sliceLast_of_le (n : Nat) (l : List α) (h : l.length ≤ n) :
    sliceLast n l = l := by
  simp [sliceLast, Nat.sub_eq_zero_of_le h]

theorem sliceLast_append_of_le (n : Nat) (u v : List α) (h : n ≤ v.length) :
    sliceLast n (u ++ v) = sliceLast n v := by
  unfold sliceLast
  rw [List.length_append]
  have h1 : u.length + v.length - n = u.length + (v.length - n) := by omega
  rw [h1, ← List.drop_drop, List.drop_left]

theorem sliceLast_append_left (n : Nat) (xs ys : List α) :
    sliceLast n (sliceLast n xs ++ ys) = sliceLast n (xs ++ ys) := by
  by_cases h : xs.length ≤ n
  · rw [sliceLast_of_le n xs h]
  · have hlen : n ≤ (xs.drop (xs.length - n) ++ ys).length := by
      simp only [List.length_append, List.length_drop]
      omega
    conv_rhs => rw [← List.take_append_drop (xs.length - n) xs, List.append_assoc]
    rw [sliceLast_append_of_le n (xs.take (xs.length - n)) _ hlen]
    rfl

theorem sliceLast_getLast?_concat (n : Nat) (l : List α) (a : α) (h : 0 < n) :
    (sliceLast n (l ++ [a])).getLast? = some a := by
  unfold sliceLast
  have h1 : (l ++ [a]).length - n ≤ l.length := by
    simp only [List.length_append, List.length_singleton]
    omega
  rw [List.drop_append_of_le_length h1, List.getLast?_concat]

theorem addLogs_history_eq : ∀ (events : List LogEvent), events ≠ [] →
    ∀ (s : WorkflowState),
    (addLogs s events).history = sliceLast 500 (s.history ++ events.map entryOfEvent) := by
  intro events
  induction events with
  | nil => intro h; exact absurd rfl h
  | cons e es ih =>
    intro _ s
    cases es with
    | nil => simp [addLogs, addLog, entryOfEvent]
    | cons e2 es2 =>
      have hstep : addLogs s (e :: e2 :: es2)
          = addLogs (addLog e.now e.message e.level e.details s) (e2 :: es2) := by
        simp only [addLogs, List.foldl_cons]
      have hhist : (addLog e.now e.message e.level e.details s).history
          = sliceLast 500 (s.history ++ [entryOfEvent e]) := by
        simp only [addLog, entryOfEvent]
      rw [hstep, ih (by simp) (addLog e.now e.message e.level e.details s),
        hhist, sliceLast_append_left, List.append_assoc]
      simp [entryOfEvent]

/-- Claim C7: for every sequence of `addLog` calls starting from any
state, the resulting `history` is the suffix of at most 500 entries of
the previous history followed by the appended entries in append order
(oldest evicted first), so it never exceeds 500 entries. -/
theorem addLogs_bounded_recent (s : WorkflowState) (events : List LogEvent)
    (h : events ≠ []) :
    (addLogs s events).history = sliceLast 500 (s.history ++ events.map entryOfEvent)
    ∧ (addLogs s events).history.length ≤ 500 := by
  refine ⟨addLogs_history_eq events h s, ?_⟩
  rw [addLogs_history_eq events h s]
  exact sliceLast_length_le _ _

theorem addLog_steps (now : Nat) (m : String) (lvl : LogLevel)
    (d : Option String) (s : WorkflowState) : (addLog now m lvl d s).steps = s.steps := rfl

theorem addLog_isProcessing (now : Nat) (m : String) (lvl : LogLevel)
    (d : Option String) (s : WorkflowState) :
    (addLog now m lvl d s).isProcessing = s.isProcessing := rfl

theorem executeStep_fst_steps (now0 now1 now2 : Nat) (outcome : ProviderOutcome)
    (lat index : Nat) (s : WorkflowState) (orig : WorkflowStep)
    (h : s.steps[index]? = some orig) :
    (executeStep now0 now1 now2 outcome lat index s).1.steps
      = modifyIdx (outcomeMergeFn outcome lat) index
          (modifyIdx (fun st => { st with status := StepStatus.RUNNING,
                                          modelUsed := some s.selectedModel })
            index s.steps) := by
  simp only [executeStep, h]
  cases outcome with
  | ok text =>
    simp only [clearProcessing, applyOutcome, addLog, updateStep, beginStep, h,
      outcomeMergeFn]
    split <;> rfl
  | threw v =>
    simp only [clearProcessing, applyOutcome, addLog, updateStep, beginStep, h,
      outcomeMergeFn]
    split <;> rfl

theorem executeStep_fst_isProcessing (now0 now1 now2 : Nat)
    (outcome : ProviderOutcome) (lat index : Nat) (s : WorkflowState)
    (orig : WorkflowStep) (h : s.steps[index]? = some orig) :
    (executeStep now0 now1 now2 outcome lat index s).1.isProcessing = false := by
  simp only [executeStep, h]
  cases outcome <;> rfl

theorem executeStep_snd (now0 now1 now2 : Nat) (outcome : ProviderOutcome)
    (lat index : Nat) (s : WorkflowState) (orig : WorkflowStep)
    (h : s.steps[index]? = some orig) :
    (executeStep now0 now1 now2 outcome lat index s).2
      = some { model := s.selectedModel, prompt := finalPrompt orig,
               systemInstruction := SYSTEM_INSTRUCTION,
               context := previousContext s.steps index } := by
  simp only [executeStep, h]

theorem executeStep_history_getLast? (now0 now1 now2 : Nat)
    (outcome : ProviderOutcome) (lat index : Nat) (s : WorkflowState)
    (orig : WorkflowStep) (h : s.steps[index]? = some orig) :
    (executeStep now0 now1 now2 outcome lat index s).1.history.getLast?
      = some (outcomeEntry outcome lat index now2) := by
  simp only [executeStep, h]
  cases outcome with
  | ok text =>
    simp only [clearProcessing, applyOutcome, addLog, updateStep, outcomeEntry]
    exact sliceLast_getLast?_concat 500 _ _ (by omega)
  | threw v =>
    simp only [clearProcessing, applyOutcome, addLog, updateStep, outcomeEntry]
    exact sliceLast_getLast?_concat 500 _ _ (by omega)

theorem executeStep_fst_steps_getElem? (now0 now1 now2 : Nat)
    (outcome : ProviderOutcome) (lat index : Nat) (s : WorkflowState)
    (orig : WorkflowStep) (h : s.steps[index]? = some orig) (j : Nat) :
    (executeStep now0 now1 now2 outcome lat index s).1.steps[j]?
      = if index = j then
          some (outcomeMergeFn outcome lat
            { orig with status := StepStatus.RUNNING,
                        modelUsed := some s.selectedModel })
        else s.steps[j]? := by
  rw [executeStep_fst_steps now0 now1 now2 outcome lat index s orig h]
  rw [modifyIdx_getElem?, modifyIdx_getElem?]
  by_cases hij : index = j
  · subst hij
    simp [h]
  · simp [hij]

/-- Witness for C7 at a concrete input. -/
theorem addLogs_bounded_recent_witness :
    (addLogs defaultWorkflowState [⟨7, "boot", LogLevel.info, none⟩]).history
      = sliceLast 500 (defaultWorkflowState.history
          ++ ([⟨7, "boot", LogLevel.info, none⟩] : List LogEvent).map entryOfEvent)
    ∧ (addLogs defaultWorkflowState [⟨7, "boot", LogLevel.info, none⟩]).history.length ≤ 500 :=
  addLogs_bounded_recent defaultWorkflowState [⟨7, "boot", LogLevel.info, none⟩] (by simp)

/-- Claim C5: on a failed provider call the run writes only the step's
status (to `ERROR`) and its `error` field (plus the `modelUsed` stamp the
begin phase recorded): the record equality below shows `result`, `prompt`
and `feedback` (and `id`, `title`, `timestamp`, `latency`) keep their
previous values; the last history entry is the emitted error log (with
the stack as details); and `isProcessing` is false after the run returns
on both the failure and the success path. -/
theorem executeStep_failure_frame (s : WorkflowState) (index : Nat)
    (orig : WorkflowStep) (v : ThrownValue) (t : String)
    (lat now0 now1 now2 : Nat) (h : s.steps[index]? = some orig) :
    (executeStep now0 now1 now2 (ProviderOutcome.threw v) lat index s).1.steps[index]?
      = some { orig with
               status := StepStatus.ERROR,
               modelUsed := some s.selectedModel,
               error := some (errorMessageOf v) }
    ∧ (executeStep now0 now1 now2 (ProviderOutcome.threw v) lat index s).1.history.getLast?
      = some (mkLogEntry now2
          ("Error in Step " ++ toString (index + 1) ++ ": " ++ errorMessageOf v)
          LogLevel.error (errorDetailsOf v))
    ∧ (executeStep now0 now1 now2 (ProviderOutcome.threw v) lat index s).1.isProcessing = false
    ∧ (executeStep now0 now1 now2 (ProviderOutcome.ok t) lat index s).1.isProcessing = false := by
  refine ⟨?_, ?_, ?_, ?_⟩
  · rw [executeStep_fst_steps_getElem? now0 now1 now2 (ProviderOutcome.threw v) lat index s orig h index,
      if_pos rfl]
    rfl
  · rw [executeStep_history_getLast? now0 now1 now2 (ProviderOutcome.threw v) lat index s orig h]
    rfl
  · exact executeStep_fst_isProcessing now0 now1 now2 (ProviderOutcome.threw v) lat index s orig h
  · exact executeStep_fst_isProcessing now0 now1 now2 (ProviderOutcome.ok t) lat index s orig h

/-- Witness for C5 at a concrete input. -/
theorem executeStep_failure_frame_witness :
    (executeStep 0 1 2 (ProviderOutcome.threw (ThrownValue.jsError "boom" none)) 3 0 exState).1.steps[0]?
      = some { exStep0 with
               status := StepStatus.ERROR,
               modelUsed := some exState.selectedModel,
               error := some "boom" }
    ∧ (executeStep 0 1 2 (ProviderOutcome.threw (ThrownValue.jsError "boom" none)) 3 0 exState).1.history.getLast?
      = some (mkLogEntry 2 ("Error in Step " ++ toString (0 + 1) ++ ": " ++ "boom")
          LogLevel.error none)
    ∧ (executeStep 0 1 2 (ProviderOutcome.threw (ThrownValue.jsError "boom" none)) 3 0 exState).1.isProcessing = false
    ∧ (executeStep 0 1 2 (ProviderOutcome.ok "t") 3 0 exState).1.isProcessing = false :=
  executeStep_failure_frame exState 0 exStep0 (ThrownValue.jsError "boom" none) "t" 3 0 1 2 rfl

/-- Counterexample to claim C3: re-running the errored step with a
successful provider call leaves the old `error` in place next to the new
`result` — the success merge `{status, result, latency}` never clears
`error`, so `result` and `error` are not mutually exclusive after a
successful retry. -/
theorem executeStep_success_error_counterexample :
    ((executeStep 0 1 2 (ProviderOutcome.ok "fresh") 7 0 exErrState).1.steps[0]?).map WorkflowStep.error
      = some (some "boom")
    ∧ ((executeStep 0 1 2 (ProviderOutcome.ok "fresh") 7 0 exErrState).1.steps[0]?).map WorkflowStep.result
      = some (some "fresh")
    ∧ ((executeStep 0 1 2 (ProviderOutcome.ok "fresh") 7 0 exErrState).1.steps[0]?).map WorkflowStep.status
      = some StepStatus.PAUSED := ⟨rfl, rfl, rfl⟩

/-- Claim C3 (amended): on a successful provider call the run sets the
step's status to `PAUSED` (never directly `COMPLETED`), stores the
returned text in `result`, records the latency and the dispatch-time
model, and leaves every other field — including a prior `error` from a
failed attempt, which is NOT cleared — unchanged; `isProcessing` is false
after the run returns.  (The claim's "clears any error left by a previous
failed attempt" is refuted by the counterexample.) -/
theorem executeStep_success_updates (s : WorkflowState) (index : Nat)
    (orig : WorkflowStep) (t : String) (lat now0 now1 now2 : Nat)
    (h : s.steps[index]? = some orig) :
    (executeStep now0 now1 now2 (ProviderOutcome.ok t) lat index s).1.steps[index]?
      = some { orig with
               status := StepStatus.PAUSED,
               modelUsed := some s.selectedModel,
               result := some t, latency := some lat }
    ∧ (executeStep now0 now1 now2 (ProviderOutcome.ok t) lat index s).1.history.getLast?
      = some (mkLogEntry now2
          ("Step " ++ toString (index + 1) ++ " execution successful. Latency: "
            ++ toString lat ++ "ms") LogLevel.success none)
    ∧ (executeStep now0 now1 now2 (ProviderOutcome.ok t) lat index s).1.isProcessing = false := by
  refine ⟨?_, ?_, ?_⟩
  · rw [executeStep_fst_steps_getElem? now0 now1 now2 (ProviderOutcome.ok t) lat index s orig h index,
      if_pos rfl]
    rfl
  · rw [executeStep_history_getLast? now0 now1 now2 (ProviderOutcome.ok t) lat index s orig h]
    rfl
  · exact executeStep_fst_isProcessing now0 now1 now2 (ProviderOutcome.ok t) lat index s orig h

/-- Witness for the amended C3 at a concrete input. -/
theorem executeStep_success_updates_witness :
    (executeStep 0 1 2 (ProviderOutcome.ok "out") 9 0 exState).1.steps[0]?
      = some { exStep0 with
               status := StepStatus.PAUSED,
               modelUsed := some exState.selectedModel,
               result := some "out", latency := some 9 }
    ∧ (executeStep 0 1 2 (ProviderOutcome.ok "out") 9 0 exState).1.history.getLast?
      = some (mkLogEntry 2
          ("Step " ++ toString (0 + 1) ++ " execution successful. Latency: "
            ++ toString 9 ++ "ms") LogLevel.success none)
    ∧ (executeStep 0 1 2 (ProviderOutcome.ok "out") 9 0 exState).1.isProcessing = false :=
  executeStep_success_updates exState 0 exStep0 "out" 9 0 1 2 rfl

/-- Counterexample to claim C1: invoking `executeStep` while
`isProcessing` is true is not rejected — the state changes, a provider
call is dispatched, and two consecutive begin phases leave two steps
`RUNNING` at once. -/
theorem executeStep_busy_counterexample :
    exBusy.isProcessing = true
    ∧ (executeStep 0 1 2 (ProviderOutcome.ok "r") 5 0 exBusy).1 ≠ exBusy
    ∧ ((executeStep 0 1 2 (ProviderOutcome.ok "r") 5 0 exBusy).2).isSome = true
    ∧ ((beginStep 1 (beginStep 0 exBusy)).steps.filter
        (fun st => st.status == StepStatus.RUNNING)).length = 2 := by
  refine ⟨rfl, ?_, rfl, rfl⟩
  intro hEq
  have h1 : ((executeStep 0 1 2 (ProviderOutcome.ok "r") 5 0 exBusy).1.steps[0]?).map WorkflowStep.status
      = (exBusy.steps[0]?).map WorkflowStep.status := by rw [hEq]
  have h2 : some StepStatus.PAUSED = some StepStatus.PENDING := h1
  simp at h2

/-- Claim C1 (amended): `executeStep` performs no `isProcessing` check:
invoked with an in-range index while `isProcessing` is already true, it
still marks the target step `RUNNING` (stamping the selected model),
keeps `isProcessing` raised, dispatches the provider call, and on
completion clears `isProcessing`.  Mutual exclusion is enforced only by
the UI disabling the Start Step button, not by the engine, so a second
step can enter `RUNNING` while another is in flight. -/
theorem executeStep_ignores_isProcessing (s : WorkflowState) (index : Nat)
    (orig : WorkflowStep) (outcome : ProviderOutcome) (lat now0 now1 now2 : Nat)
    (h : s.steps[index]? = some orig) (hbusy : s.isProcessing = true) :
    ((beginStep index s).steps[index]?).map WorkflowStep.status = some StepStatus.RUNNING
    ∧ (beginStep index s).isProcessing = true
    ∧ ((executeStep now0 now1 now2 outcome lat index s).2).isSome = true
    ∧ (executeStep now0 now1 now2 outcome lat index s).1.isProcessing = false := by
  refine ⟨?_, ?_, ?_, executeStep_fst_isProcessing now0 now1 now2 outcome lat index s orig h⟩
  · simp only [beginStep, h]
    rw [modifyIdx_getElem?, if_pos rfl, h]
    rfl
  · simp only [beginStep, h]
  · rw [executeStep_snd now0 now1 now2 outcome lat index s orig h]
    rfl

theorem executeStep_preserves {γ : Type} (g : WorkflowStep → γ)
    (outcome : ProviderOutcome) (lat now0 now1 now2 index j : Nat)
    (s : WorkflowState)
    (hbegin : ∀ st m, g { st with status := StepStatus.RUNNING, modelUsed := some m } = g st)
    (hout : ∀ st, g (outcomeMergeFn outcome lat st) = g st) :
    ((executeStep now0 now1 now2 outcome lat index s).1.steps[j]?).map g
      = (s.steps[j]?).map g := by
  cases hmem : s.steps[index]? with
  | none => simp only [executeStep, hmem]
  | some orig =>
    rw [executeStep_fst_steps_getElem? now0 now1 now2 outcome lat index s orig hmem j]
    by_cases hij : index = j
    · subst hij
      rw [if_pos rfl, hmem, Option.map_some', Option.map_some', hout, hbegin]
    · rw [if_neg hij]

/-- Claim C10: completing a run — success or failure — never modifies any
step's `feedback`: the begin merge writes only `status`/`modelUsed`, the
success merge only `status`/`result`/`latency`, the failure merge only
`status`/`error`, so feedback entered before the run survives it, and
feedback edited while the call is in flight (`sMid` is the in-flight
state) survives the outcome merge; only `handleReset` clears it. -/
theorem feedback_frame (s sMid : WorkflowState) (outcome : ProviderOutcome)
    (lat now0 now1 now2 now index j : Nat) (txt : String) :
    ((executeStep now0 now1 now2 outcome lat index s).1.steps[j]?).map WorkflowStep.feedback
      = (s.steps[j]?).map WorkflowStep.feedback
    ∧ ((applyOutcome now2 outcome lat index sMid).steps[j]?).map WorkflowStep.feedback
      = (sMid.steps[j]?).map WorkflowStep.feedback
    ∧ ((editFeedback index txt sMid).steps[index]?).map WorkflowStep.feedback
      = (sMid.steps[index]?).map (fun _ => some txt)
    ∧ (∀ st ∈ (handleReset now s).steps, st.feedback = none) := by
  refine ⟨?_, ?_, ?_, ?_⟩
  · exact executeStep_preserves WorkflowStep.feedback outcome lat now0 now1 now2 index j s
      (fun st m => rfl) (fun st => by cases outcome <;> rfl)
  · cases outcome with
    | ok t =>
      simp only [applyOutcome, addLog_steps, updateStep]
      rw [modifyIdx_getElem?]
      by_cases hij : index = j
      · rw [if_pos hij]
        cases sMid.steps[j]? <;> rfl
      · rw [if_neg hij]
    | threw v =>
      simp only [applyOutcome, addLog_steps, updateStep]
      rw [modifyIdx_getElem?]
      by_cases hij : index = j
      · rw [if_pos hij]
        cases sMid.steps[j]? <;> rfl
      · rw [if_neg hij]
  · simp only [editFeedback, updateStep]
    rw [modifyIdx_getElem?, if_pos rfl]
    cases sMid.steps[index]? <;> rfl
  · simp only [handleReset, addLog_steps]
    intro st hst
    rw [List.mem_map] at hst
    obtain ⟨a, _, rfl⟩ := hst
    rfl

/-- Witness for C10 at a concrete input. -/
theorem feedback_frame_witness :
    ((executeStep 0 1 2 (ProviderOutcome.ok "r") 5 0 exState).1.steps[0]?).map WorkflowStep.feedback
      = some none
    ∧ ((applyOutcome 2 (ProviderOutcome.ok "r") 5 0 exBusy).steps[0]?).map WorkflowStep.feedback
      = some none
    ∧ ((editFeedback 0 "fb" exBusy).steps[0]?).map WorkflowStep.feedback
      = some (some "fb")
    ∧ (∀ st ∈ (handleReset 3 exState).steps, st.feedback = none) :=
  feedback_frame exState exBusy (ProviderOutcome.ok "r") 5 0 1 2 3 0 0 "fb"

/-- Counterexample to claim C2: the source filters on
`status === COMPLETED && s.result`, so a COMPLETED step whose result is
the empty string contributes nothing, while the wording "exactly the
result values of the steps … whose status is COMPLETED" would make it
contribute an empty block. -/
theorem previousContext_counterexample :
    previousContext [exEmptyRes] 1 = ""
    ∧ contextSpec [exEmptyRes] 1 = "[Step: A]\nResult: "
    ∧ previousContext [exEmptyRes] 1 ≠ contextSpec [exEmptyRes] 1 := by
  refine ⟨rfl, rfl, by decide⟩

/-- Claim C2 (amended): the context dispatched by `runStep(index)` is the
`"[Step: <title>]\nResult: <result>"` blocks of exactly the steps of
index `< index` whose status is COMPLETED and whose result is present and
non-empty, in step order, joined by blank lines (steps that are PENDING,
RUNNING, PAUSED or ERROR contribute nothing); whenever every COMPLETED
step among the first `index` has a present non-empty result — the only
situation successful runs produce — this coincides with the claimed
formula over all COMPLETED steps. -/
theorem previousContext_spec (s : WorkflowState) (index : Nat)
    (orig : WorkflowStep) (outcome : ProviderOutcome) (lat now0 now1 now2 : Nat)
    (h : s.steps[index]? = some orig)
    (hres : ∀ st ∈ s.steps.take index,
      st.status = StepStatus.COMPLETED → jsTruthyStr st.result = true) :
    (executeStep now0 now1 now2 outcome lat index s).2
      = some { model := s.selectedModel, prompt := finalPrompt orig,
               systemInstruction := SYSTEM_INSTRUCTION,
               context := previousContext s.steps index }
    ∧ previousContext s.steps index = contextSpec s.steps index := by
  refine ⟨executeStep_snd now0 now1 now2 outcome lat index s orig h, ?_⟩
  unfold previousContext contextSpec
  congr 1
  congr 1
  apply List.filter_congr
  intro st hst
  cases hb : (st.status == StepStatus.COMPLETED) with
  | false => simp [hb]
  | true =>
    have hc : st.status = StepStatus.COMPLETED := by
      simpa using hb
    simp [hb, hres st hst hc]

/-- Witness for the amended C2 at a concrete input. -/
theorem previousContext_spec_witness :
    (executeStep 0 1 2 (ProviderOutcome.ok "R1") 4 1 exCtxState).2
      = some { model := exCtxState.selectedModel, prompt := finalPrompt exStep1,
               systemInstruction := SYSTEM_INSTRUCTION,
               context := previousContext exCtxState.steps 1 }
    ∧ previousContext exCtxState.steps 1 = contextSpec exCtxState.steps 1 :=
  previousContext_spec exCtxState 1 exStep1 (ProviderOutcome.ok "R1") 4 0 1 2 rfl
    (by decide)

/-- Witness for the amended C1 at a concrete input. -/
theorem executeStep_ignores_isProcessing_witness :
    ((beginStep 0 exBusy).steps[0]?).map WorkflowStep.status = some StepStatus.RUNNING
    ∧ (beginStep 0 exBusy).isProcessing = true
    ∧ ((executeStep 0 1 2 (ProviderOutcome.ok "r") 5 0 exBusy).2).isSome = true
    ∧ (executeStep 0 1 2 (ProviderOutcome.ok "r") 5 0 exBusy).1.isProcessing = false :=
  executeStep_ignores_isProcessing exBusy 0 exStep0 (ProviderOutcome.ok "r") 5 0 1 2 rfl rfl

/-- Counterexample to claim C4: approving the last (here: only) step does
not advance `currentStepIndex` to `steps.length` — the advancing
`setState` is guarded by `nextIndex < steps.length`, so the index stays
at `steps.length - 1` and never reaches `steps.length`. -/
theorem handleContinue_counterexample :
    ((exLastPaused.steps[exLastPaused.currentStepIndex]?).map WorkflowStep.status
      = some StepStatus.PAUSED)
    ∧ exLastPaused.steps.length = 1
    ∧ (handleContinue 0 exLastPaused).currentStepIndex = 0
    ∧ (handleContinue 0 exLastPaused).currentStepIndex ≠ exLastPaused.steps.length := by
  refine ⟨rfl, rfl, rfl, by decide⟩

/-- Claim C4 (amended): when the current step is `PAUSED`,
`handleContinue` marks it `COMPLETED`; when it is not the last step,
`currentStepIndex` advances by one; when it is the last step the index
stays at `steps.length - 1` (it never reaches `steps.length`) and the
"Workflow successfully completed!" success log entry is emitted as the
most recent history entry. -/
theorem handleContinue_spec (s : WorkflowState) (orig : WorkflowStep) (now : Nat)
    (h : s.steps[s.currentStepIndex]? = some orig)
    (hp : orig.status = StepStatus.PAUSED) :
    ((handleContinue now s).steps[s.currentStepIndex]?).map WorkflowStep.status
      = some StepStatus.COMPLETED
    ∧ (s.currentStepIndex + 1 < s.steps.length →
        (handleContinue now s).currentStepIndex = s.currentStepIndex + 1)
    ∧ (¬ s.currentStepIndex + 1 < s.steps.length →
        (handleContinue now s).currentStepIndex = s.currentStepIndex
        ∧ (handleContinue now s).history.getLast?
            = some (mkLogEntry now
                ("Workflow successfully completed! All steps finished.")
                LogLevel.success none)) := by
  by_cases hlt : s.currentStepIndex + 1 < s.steps.length
  · simp only [handleContinue, if_pos hlt]
    refine ⟨?_, fun _ => rfl, fun hcon => absurd hlt hcon⟩
    rw [addLog_steps]
    simp only [updateStep]
    rw [modifyIdx_getElem?, if_pos rfl, h]
    rfl
  · simp only [handleContinue, if_neg hlt]
    refine ⟨?_, fun hcon => absurd hcon hlt, fun _ => ⟨rfl, ?_⟩⟩
    · rw [addLog_steps]
      simp only [updateStep]
      rw [modifyIdx_getElem?, if_pos rfl, h]
      rfl
    · simp only [addLog]
      exact sliceLast_getLast?_concat 500 _ _ (by omega)

/-- Witness for the amended C4 at a concrete input. -/
theorem handleContinue_spec_witness :
    ((handleContinue 6 exLastPaused).steps[exLastPaused.currentStepIndex]?).map WorkflowStep.status
      = some StepStatus.COMPLETED
    ∧ (exLastPaused.currentStepIndex + 1 < exLastPaused.steps.length →
        (handleContinue 6 exLastPaused).currentStepIndex = exLastPaused.currentStepIndex + 1)
    ∧ (¬ exLastPaused.currentStepIndex + 1 < exLastPaused.steps.length →
        (handleContinue 6 exLastPaused).currentStepIndex = exLastPaused.currentStepIndex
        ∧ (handleContinue 6 exLastPaused).history.getLast?
            = some (mkLogEntry 6
                ("Workflow successfully completed! All steps finished.")
                LogLevel.success none)) :=
  handleContinue_spec exLastPaused
    { id := "s1", title := "A", prompt := "p",
      status := StepStatus.PAUSED, result := some "R" } 6 rfl rfl

/-- Counterexample to claim C9: `handleReset` appends a
"Workflow reset initiated." warn log entry on every confirmed
invocation, so calling it twice does not yield the same state as calling
it once — the histories differ (two entries versus one). -/
theorem handleReset_counterexample :
    (handleReset 0 (handleReset 0 exJunk)).history.length = 2
    ∧ (handleReset 0 exJunk).history.length = 1
    ∧ handleReset 0 (handleReset 0 exJunk) ≠ handleReset 0 exJunk := by
  refine ⟨rfl, rfl, ?_⟩
  intro hEq
  have h1 : (handleReset 0 (handleReset 0 exJunk)).history.length
      = (handleReset 0 exJunk).history.length := by rw [hEq]
  have h2 : (2 : Nat) = 1 := h1
  simp at h2

/-- Claim C9 (amended): reset is idempotent on the step/progress portion
of the state — a second `handleReset` leaves `steps`, `currentStepIndex`
and `isProcessing` exactly as the first left them (every step `PENDING`
with `result`, `error`, `latency`, `feedback` cleared, index 0,
processing flag down) — and the previous log history is preserved (never
cleared), but each confirmed invocation additionally appends one
"Workflow reset initiated." warn entry, so the full states after one and
two resets differ by that entry. -/
theorem handleReset_spec (s : WorkflowState) (n1 n2 : Nat) :
    (handleReset n2 (handleReset n1 s)).steps = (handleReset n1 s).steps
    ∧ (handleReset n2 (handleReset n1 s)).currentStepIndex
        = (handleReset n1 s).currentStepIndex
    ∧ (handleReset n2 (handleReset n1 s)).isProcessing
        = (handleReset n1 s).isProcessing
    ∧ (handleReset n1 s).history
        = sliceLast 500 (s.history
            ++ [mkLogEntry n1 ("Workflow reset initiated.") LogLevel.warn none])
    ∧ (∀ st ∈ (handleReset n1 s).steps,
        st.status = StepStatus.PENDING ∧ st.result = none ∧ st.error = none
          ∧ st.latency = none ∧ st.feedback = none)
    ∧ (handleReset n1 s).currentStepIndex = 0
    ∧ (handleReset n1 s).isProcessing = false := by
  have hsteps : ∀ (n : Nat) (x : WorkflowState), (handleReset n x).steps
      = x.steps.map (fun st =>
          { st with status := StepStatus.PENDING, result := none,
                    error := none, latency := none, feedback := none }) :=
    fun n x => rfl
  refine ⟨?_, rfl, rfl, rfl, ?_, rfl, rfl⟩
  · rw [hsteps, hsteps, List.map_map]
    rfl
  · rw [hsteps]
    intro st hst
    rw [List.mem_map] at hst
    obtain ⟨a, _, rfl⟩ := hst
    exact ⟨rfl, rfl, rfl, rfl, rfl⟩

/-- Witness for the amended C9 at a concrete input. -/
theorem handleReset_spec_witness :
    (handleReset 1 (handleReset 0 exJunk)).steps = (handleReset 0 exJunk).steps
    ∧ (handleReset 1 (handleReset 0 exJunk)).currentStepIndex
        = (handleReset 0 exJunk).currentStepIndex
    ∧ (handleReset 1 (handleReset 0 exJunk)).isProcessing
        = (handleReset 0 exJunk).isProcessing
    ∧ (handleReset 0 exJunk).history
        = sliceLast 500 (exJunk.history
            ++ [mkLogEntry 0 ("Workflow reset initiated.") LogLevel.warn none])
    ∧ (∀ st ∈ (handleReset 0 exJunk).steps,
        st.status = StepStatus.PENDING ∧ st.result = none ∧ st.error = none
          ∧ st.latency = none ∧ st.feedback = none)
    ∧ (handleReset 0 exJunk).currentStepIndex = 0
    ∧ (handleReset 0 exJunk).isProcessing = false :=
  handleReset_spec exJunk 0 1

/-- Counterexample to claim C8: `loadState` returns this parsed snapshot
as-is even though `"bogus-model"` is not a known provider identifier —
it does not fall back to the default state on an unknown
`selectedModel`, because the check is only
`parsed.steps && Array.isArray(parsed.steps) && parsed.selectedModel`. -/
theorem loadState_counterexample :
    loadState (some (Except.ok badParsed)) = Sum.inl badParsed
    ∧ knownModelId "bogus-model" = false := ⟨rfl, rfl⟩

/-- Claim C8 (amended): `loadState` never crashes — for every stored
item it returns either the parsed snapshot or the default initial state —
and it returns the parsed snapshot exactly when the item was present,
parsed without an exception, and passed the shallow check that `steps`
is a (truthy) array and `selectedModel` is truthy; it falls back to the
default state on an absent item, a parse exception, or a failed shallow
check, but it does not validate that `selectedModel` is a known provider
identifier, nor that the entries of `steps` are well-formed steps. -/
theorem loadState_spec (stored : Option (Except Unit Jval)) :
    (∀ v : Jval, loadState stored = Sum.inl v ↔
      (stored = some (Except.ok v) ∧ shallowStateCheck v = true))
    ∧ ((∃ v, loadState stored = Sum.inl v)
        ∨ loadState stored = Sum.inr defaultWorkflowState) := by
  cases stored with
  | none =>
    refine ⟨fun v => ⟨fun h => ?_, fun ⟨hv, _⟩ => ?_⟩, Or.inr rfl⟩
    · exact absurd h (by simp [loadState])
    · exact absurd hv (by simp)
  | some exc =>
    cases exc with
    | error e =>
      refine ⟨fun v => ⟨fun h => ?_, fun ⟨hv, _⟩ => ?_⟩, Or.inr rfl⟩
      · exact absurd h (by simp [loadState])
      · exact absurd hv (by simp)
    | ok parsed =>
      by_cases hc : shallowStateCheck parsed = true
      · refine ⟨fun v => ⟨fun h => ?_, fun ⟨hv, _⟩ => ?_⟩,
          Or.inl ⟨parsed, by simp [loadState, hc]⟩⟩
        · have h0 : (Sum.inl parsed : Jval ⊕ WorkflowState) = Sum.inl v := by
            rw [← h]
            simp [loadState, hc]
          obtain rfl : parsed = v := by
            simpa using h0
          exact ⟨rfl, hc⟩
        · obtain rfl : parsed = v := by
            simpa using hv
          simp [loadState, hc]
      · refine ⟨fun v => ⟨fun h => ?_, fun ⟨hv, hcv⟩ => ?_⟩, Or.inr (by simp [loadState, hc])⟩
        · rw [show loadState (some (Except.ok parsed)) = Sum.inr defaultWorkflowState by
            simp [loadState, hc]] at h
          exact absurd h (by simp)
        · obtain rfl : parsed = v := by
            simpa using hv
          exact absurd hcv hc

/-- Witness for the amended C8 at a concrete input. -/
theorem loadState_spec_witness :
    loadState (some (Except.ok goodParsed)) = Sum.inl goodParsed
    ∧ loadState none = Sum.inr defaultWorkflowState :=
  ⟨((loadState_spec (some (Except.ok goodParsed))).1 goodParsed).mpr ⟨rfl, rfl⟩,
    ((loadState_spec none).2).resolve_left
      (fun ⟨v, hv⟩ => by simp [loadState] at hv)⟩

theorem mk_length (l : List Char) : (String.mk l).length = l.length := rfl

theorem head?_dropWhile_false (p : α → Bool) :
    ∀ (l : List α) (c : α), (l.dropWhile p).head? = some c → p c = false := by
  intro l
  induction l with
  | nil => intro c h; cases h
  | cons a as ih =>
    intro c h
    by_cases hp : p a
    · rw [List.dropWhile_cons_of_pos hp] at h
      exact ih c h
    · rw [List.dropWhile_cons_of_neg hp] at h
      obtain rfl : a = c := by simpa using h
      cases hpa : p a with
      | false => rfl
      | true => exact absurd hpa hp

theorem dropWhile_eq_self_of_head (p : α → Bool) (l : List α)
    (h : ∀ c, l.head? = some c → p c = false) : l.dropWhile p = l := by
  cases l with
  | nil => rfl
  | cons a as => exact List.dropWhile_cons_of_neg (by simp [h a rfl])

theorem jsTrimList_head?_false (l : List Char) (c : Char)
    (hc : (jsTrimList l).head? = some c) : jsWhitespace c = false := by
  unfold jsTrimList at hc
  obtain ⟨t, ht⟩ :=
    List.dropWhile_suffix (l := (l.dropWhile jsWhitespace).reverse) jsWhitespace
  have hm2 : l.dropWhile jsWhitespace
      = ((l.dropWhile jsWhitespace).reverse.dropWhile jsWhitespace).reverse
        ++ t.reverse := by
    have h3 := congrArg List.reverse ht
    simpa [List.reverse_append] using h3.symm
  have hhead : (l.dropWhile jsWhitespace).head? = some c := by
    rw [hm2]
    cases hX : ((l.dropWhile jsWhitespace).reverse.dropWhile jsWhitespace).reverse with
    | nil => rw [hX] at hc; cases hc
    | cons x xs =>
      rw [hX] at hc
      obtain rfl : x = c := by simpa using hc
      simp
  exact head?_dropWhile_false jsWhitespace l c hhead

theorem head?_take_pos (n : Nat) (h : 0 < n) (l : List α) :
    (l.take n).head? = l.head? := by
  cases l with
  | nil => simp
  | cons a as =>
    obtain ⟨m, rfl⟩ : ∃ m, n = m + 1 := ⟨n - 1, by omega⟩
    simp [List.take_succ_cons]

theorem dropWhile_ws_replicate_space :
    ∀ n, List.dropWhile jsWhitespace (List.replicate n ' ') = [] := by
  intro n
  induction n with
  | zero => rfl
  | succ n ih =>
    rw [List.replicate_succ, List.dropWhile_cons_of_pos (by decide)]
    exact ih

/-- Counterexample to claim C6: sanitization is trim-then-truncate, so a
5000-character all-space feedback string sanitizes to the empty string
(0 characters, not exactly 2000), and a 5000-character string whose
characters 1..3000 are spaces sanitizes to exactly 2000 characters ending
in whitespace — "exactly 2000 characters with no leading or trailing
whitespace" fails on both. -/
theorem sanitizeFeedback_counterexample :
    fbSpaces.length = 5000
    ∧ sanitizeFeedback fbSpaces = ""
    ∧ fbMixed.length = 5000
    ∧ (sanitizeFeedback fbMixed).length = 2000
    ∧ (sanitizeFeedback fbMixed).data.getLast? = some ' '
    ∧ jsWhitespace ' ' = true := by
  have hhead : ∀ c, fbMixed.data.head? = some c → jsWhitespace c = false := by
    intro c hc
    rw [show fbMixed.data.head? = some 'a' by rfl] at hc
    obtain rfl : 'a' = c := by simpa using hc
    decide
  have hd1 : fbMixed.data.dropWhile jsWhitespace = fbMixed.data :=
    dropWhile_eq_self_of_head _ _ hhead
  have hlast : fbMixed.data.reverse.head? = some 'b' := by
    rw [List.head?_reverse]
    rw [show fbMixed.data
        = ['a'] ++ (List.replicate 3000 ' ' ++ List.replicate 1999 'b') by rfl]
    rw [List.getLast?_append, List.getLast?_append]
    rw [show (List.replicate 1999 'b').getLast? = some 'b' by
      rw [List.getLast?_replicate]; norm_num]
    rfl
  have hd2 : fbMixed.data.reverse.dropWhile jsWhitespace = fbMixed.data.reverse := by
    apply dropWhile_eq_self_of_head
    intro c hc
    rw [hlast] at hc
    obtain rfl : 'b' = c := by simpa using hc
    decide
  have htrim : jsTrimList fbMixed.data = fbMixed.data := by
    unfold jsTrimList
    rw [hd1, hd2, List.reverse_reverse]
  have htake : fbMixed.data.take 2000 = 'a' :: List.replicate 1999 ' ' := by
    rw [show fbMixed.data
        = ('a' :: (List.replicate 3000 ' ' ++ List.replicate 1999 'b')) by rfl]
    rw [show (2000 : Nat) = 1999 + 1 by rfl, List.take_succ_cons]
    rw [List.take_append_of_le_length (by rw [List.length_replicate]; omega)]
    rw [List.take_replicate]
    norm_num
  have hspaces : jsTrimList (List.replicate 5000 ' ') = [] := by
    unfold jsTrimList
    rw [dropWhile_ws_replicate_space]
    rfl
  have hS : sanitizeFeedback fbMixed = String.mk ('a' :: List.replicate 1999 ' ') := by
    unfold sanitizeFeedback jsSlice jsTrim
    dsimp only
    rw [htrim, htake]
  refine ⟨?_, ?_, ?_, ?_, ?_, by decide⟩
  · unfold fbSpaces
    rw [mk_length, List.length_replicate]
  · unfold sanitizeFeedback jsSlice jsTrim fbSpaces
    dsimp only
    rw [hspaces]
    rfl
  · unfold fbMixed
    rw [mk_length]
    simp only [List.length_cons, List.length_append, List.length_replicate]
  · rw [hS, mk_length]
    simp only [List.length_cons, List.length_replicate]
  · rw [hS]
    dsimp only
    rw [show ('a' :: List.replicate 1999 ' ') = ['a'] ++ List.replicate 1999 ' ' by rfl]
    rw [List.getLast?_append]
    rw [show (List.replicate 1999 ' ').getLast? = some ' ' by
      rw [List.getLast?_replicate]; norm_num]
    rfl

/-- Claim C6 (amended): the sanitized feedback appended to the final
prompt is the trimmed input truncated to at most 2000 characters — never
longer, exactly 2000 whenever at least 2000 characters remain after
trimming, and with no leading whitespace (trailing whitespace can survive
when truncation cuts inside an interior whitespace run); the appending is
deterministic concatenation after the unchanged base prompt, and no run
ever mutates a step's stored prompt. -/
theorem sanitizeFeedback_spec (fb : String) (step : WorkflowStep)
    (outcome : ProviderOutcome) (lat now0 now1 now2 index j : Nat)
    (s : WorkflowState) :
    (sanitizeFeedback fb).length ≤ 2000
    ∧ (2000 ≤ (jsTrim fb).length → (sanitizeFeedback fb).length = 2000)
    ∧ (∀ c, (sanitizeFeedback fb).data.head? = some c → jsWhitespace c = false)
    ∧ (jsTruthyStr step.feedback = true →
        finalPrompt step = step.prompt ++ "\n\nIMPORTANT USER FEEDBACK: "
          ++ sanitizeFeedback (step.feedback.getD ""))
    ∧ (jsTruthyStr step.feedback = false → finalPrompt step = step.prompt)
    ∧ ((executeStep now0 now1 now2 outcome lat index s).1.steps[j]?).map WorkflowStep.prompt
        = (s.steps[j]?).map WorkflowStep.prompt := by
  have hlen : (sanitizeFeedback fb).length = min 2000 (jsTrimList fb.data).length := by
    rw [show sanitizeFeedback fb = String.mk ((jsTrimList fb.data).take 2000) by rfl,
      mk_length, List.length_take]
  refine ⟨?_, ?_, ?_, ?_, ?_, ?_⟩
  · rw [hlen]
    exact Nat.min_le_left _ _
  · intro h
    rw [show (jsTrim fb).length = (jsTrimList fb.data).length by rfl] at h
    rw [hlen]
    omega
  · intro c hc
    rw [show (sanitizeFeedback fb).data = (jsTrimList fb.data).take 2000 by rfl,
      head?_take_pos 2000 (by omega)] at hc
    exact jsTrimList_head?_false fb.data c hc
  · intro h
    simp [finalPrompt, h]
  · intro h
    simp [finalPrompt, h]
  · exact executeStep_preserves WorkflowStep.prompt outcome lat now0 now1 now2 index j s
      (fun st m => rfl) (fun st => by cases outcome <;> rfl)

/-- Witness for the amended C6 at a concrete input. -/
theorem sanitizeFeedback_spec_witness :
    (sanitizeFeedback "  hi  ").length ≤ 2000
    ∧ (2000 ≤ (jsTrim "  hi  ").length → (sanitizeFeedback "  hi  ").length = 2000)
    ∧ (∀ c, (sanitizeFeedback "  hi  ").data.head? = some c → jsWhitespace c = false)
    ∧ (jsTruthyStr exStep0.feedback = true →
        finalPrompt exStep0 = exStep0.prompt ++ "\n\nIMPORTANT USER FEEDBACK: "
          ++ sanitizeFeedback (exStep0.feedback.getD ""))
    ∧ (jsTruthyStr exStep0.feedback = false → finalPrompt exStep0 = exStep0.prompt)
    ∧ ((executeStep 0 1 2 (ProviderOutcome.ok "r") 5 0 exState).1.steps[0]?).map WorkflowStep.prompt
        = (exState.steps[0]?).map WorkflowStep.prompt :=
  sanitizeFeedback_spec "  hi  " exStep0 (ProviderOutcome.ok "r") 5 0 1 2 0 0 exState

end NexusFlow
